import Mathlib

/-!
Verification development for a tree-walking Lox interpreter (Python).
The definitions below are shallow embeddings of the interpreter's data
model and operations: environments, runtime values, the expression and
statement evaluator, the scanner's block-comment loop, native callables,
arrays and trait application.  Numbers are modelled as rationals (the
interpreter uses 64-bit floats; every computation the theorems exercise
is exact, so no rounding behaviour is lost).  Python `None` is the Lox
value `nil`; Python exceptions (LoxRuntimeError, ReturnException,
BreakException) are modelled as explicit outcome constructors.
-/

namespace Lox

/-- Association-list lookup, modelling a Python `dict.get(key)` /
`key in dict` pair (insertion order preserved, keys unique). -/
def alookup {α : Type} : List (String × α) → String → Option α
  | [], _ => none
  | (k, v) :: rest, n => if k = n then some v else alookup rest n

/-- Membership of a key, modelling Python `key in dict`. -/
def containsKey {α : Type} (l : List (String × α)) (n : String) : Bool :=
  (alookup l n).isSome

/-- Assignment `dict[key] = value`: overwrite in place when the key
exists, append otherwise (Python dicts keep insertion order). -/
def assocSet {α : Type} : List (String × α) → String → α → List (String × α)
  | [], n, v => [(n, v)]
  | (k, w) :: rest, n, v =>
    if k = n then (k, v) :: rest else (k, w) :: assocSet rest n v

/-- Literal values carried by `Literal` AST nodes (the parser only ever
stores nil, booleans, numbers and strings there). -/
inductive Lit where
  | lnil : Lit
  | lbool : Bool → Lit
  | lnum : ℚ → Lit
  | lstr : String → Lit
  deriving DecidableEq, Repr

/-- Expressions (the subset of `expr.py` exercised by the claims).  The
`Option Nat` on `evar` and `assign` embeds the resolver's side table
`Interpreter._locals` (`none` = no entry = global lookup), which in the
source is keyed on node identity. -/
inductive Expr where
  | lit : Lit → Expr
  | evar : String → Option Nat → Expr
  | assign : String → Option Nat → Expr → Expr
  | call : Expr → List Expr → Expr
  | get : Expr → String → Expr

/-- Statements (the subset of `stmt.py` exercised by the claims). -/
inductive Stmt where
  | expression : Expr → Stmt
  | varDecl : String → Option Expr → Stmt
  | block : List Stmt → Stmt
  | ret : Option Expr → Stmt
  | brk : Stmt

/-- A function declaration (`stmt.py` `Function`): `params = none`
means the declaration had no parameter list, i.e. a getter method. -/
structure FunDecl where
  name : String
  params : Option (List String)
  body : List Stmt

/-- A runtime function value (`lox_function.py` `LoxFunction`): the
declaration, the id of the closure environment, and the
`is_initializer` flag. -/
structure FunData where
  decl : FunDecl
  closure : Nat
  isInit : Bool

/-- A runtime class (`lox_class.py` `LoxClass`): name, optional
superclass and method table.  Classes are immutable once built, so they
are embedded structurally rather than through the store. -/
inductive ClassData where
  | mk : String → Option ClassData → List (String × FunData) → ClassData

/-- Method-table accessor for `ClassData`. -/
def ClassData.methods : ClassData → List (String × FunData)
  | .mk _ _ ms => ms

/-- Superclass accessor for `ClassData`. -/
def ClassData.superclass : ClassData → Option ClassData
  | .mk _ s _ => s

/-- Method lookup, translating `LoxClass.find_method`: own methods
first, then recursively the superclass. -/
def findMethod : ClassData → String → Option FunData
  | .mk _ sup ms, n =>
    match alookup ms n with
    | some m => some m
    | none =>
      match sup with
      | some k => findMethod k n
      | none => none

/-- Runtime values (`Nil`, booleans, numbers, strings, functions and
instance references; instances live in the state's store because their
fields are mutable). -/
inductive Value where
  | vnil : Value
  | vbool : Bool → Value
  | vnum : ℚ → Value
  | vstr : String → Value
  | vfun : FunData → Value
  | vinst : Nat → Value

/-- Conversion of a literal to a runtime value
(`Interpreter.visit_literal_expr` returns `expr.value` unchanged). -/
def Lit.toValue : Lit → Value
  | .lnil => .vnil
  | .lbool b => .vbool b
  | .lnum q => .vnum q
  | .lstr s => .vstr s

/-- Truthiness, translating `Interpreter._is_truthy`, whose body is
`return bool(obj)` — the host language's truth test: `None` and `False`
are falsy, and so are the number `0` and the empty string; functions
and instances are objects without `__bool__`/`__len__`, hence truthy. -/
def isTruthy : Value → Bool
  | .vnil => false
  | .vbool b => b
  | .vnum q => q != 0
  | .vstr s => s != ""
  | .vfun _ => true
  | .vinst _ => true

/-- Truncation toward zero, translating Python's `int(x)` applied to a
number (`int(2.5) = 2`, `int(-2.5) = -2`): the floor for non-negative
arguments and the negated floor of the negation otherwise. -/
def pyInt (q : ℚ) : Int := if q < 0 then -(⌊-q⌋) else ⌊q⌋

/-- The native `floor`, translating `FloorCallable.call`: a number
argument yields `float(int(x))`, anything else the type error. -/
def floorNative (arg : Value) : Except String Value :=
  match arg with
  | .vnum q => .ok (.vnum (pyInt q : ℚ))
  | _ => .error "Argument to floor() must be a number."

/-- The native `ceil`, translating `CeilCallable.call`: a number
argument yields `float(-int(-x))`, anything else the type error. -/
def ceilNative (arg : Value) : Except String Value :=
  match arg with
  | .vnum q => .ok (.vnum ((-(pyInt (-q)) : Int) : ℚ))
  | _ => .error "Argument to ceil() must be a number."

/-- One environment of `environment.py`: the optional id of the
enclosing environment and the binding map (Python dict). -/
structure EnvData where
  enclosing : Option Nat
  values : List (String × Value)

/-- One instance of `lox_instance.py`: its class and its mutable field
map. -/
structure InstData where
  klass : Option ClassData
  fields : List (String × Value)

/-- Interpreter state: the heap of environments (a list indexed by
environment id; Python environments are heap objects reached through
references), the heap of instances, and `Interpreter._environment`, the
id of the current environment.  The globals environment is id `0`. -/
structure State where
  envs : List EnvData
  insts : List InstData
  current : Nat

/-- Outcome of evaluating or executing a piece of the program: a normal
value, a `LoxRuntimeError` (or other propagating host exception,
carried as a message), a `ReturnException` or a `BreakException`. -/
inductive Outcome (α : Type) where
  | ok : α → Outcome α
  | err : String → Outcome α
  | retSig : Value → Outcome α
  | brkSig : Outcome α

/-- Binding map of the environment with the given id (missing ids never
arise in runs started from well-formed states). -/
def State.envValues (s : State) (envId : Nat) : List (String × Value) :=
  ((s.envs.get? envId).getD ⟨none, []⟩).values

/-- Enclosing link of the environment with the given id. -/
def State.envEnclosing (s : State) (envId : Nat) : Option Nat :=
  ((s.envs.get? envId).getD ⟨none, []⟩).enclosing

/-- Allocation of `Environment(enclosing)`: a fresh id bound to an
empty map. -/
def State.newEnv (s : State) (encl : Option Nat) : Nat × State :=
  (s.envs.length, { s with envs := s.envs ++ [⟨encl, []⟩] })

/-- Update of one environment's binding map in the heap. -/
def State.setEnvValues (s : State) (envId : Nat) (vs : List (String × Value)) : State :=
  { s with
    envs := s.envs.set envId ⟨(s.envs.get? envId).elim none EnvData.enclosing, vs⟩ }

/-- Translation of `Environment.define`: `values[name] = value` on the
environment with the given id. -/
def State.define (s : State) (envId : Nat) (n : String) (v : Value) : State :=
  s.setEnvValues envId (assocSet (s.envValues envId) n v)

/-- Translation of `Environment._ancestor`: walk `distance` enclosing
links; `none` models the failing `assert` when a link is missing. -/
def State.ancestor (s : State) : Nat → Nat → Option Nat
  | envId, 0 => some envId
  | envId, d + 1 =>
    match s.envEnclosing envId with
    | some p => s.ancestor p d
    | none => none

/-- Translation of `Environment.get_at`: `values.get(name)` on the
ancestor — an absent key yields Python `None`, i.e. `nil`.  The error
case is the `AssertionError` from `_ancestor`. -/
def State.getAt (s : State) (envId d : Nat) (n : String) : Outcome Value :=
  match s.ancestor envId d with
  | some a => .ok ((alookup (s.envValues a) n).getD .vnil)
  | none => .err "Assertion failed: Enclosing environment is None."

/-- Translation of `Environment.assign_at`:
`ancestor.values[name] = value`. -/
def State.assignAt (s : State) (envId d : Nat) (n : String) (v : Value) :
    Outcome Unit × State :=
  match s.ancestor envId d with
  | some a => (.ok (), s.define a n v)
  | none => (.err "Assertion failed: Enclosing environment is None.", s)

/-- Translation of `Environment.get`: look in the own map, else recurse
into the enclosing environment, else the runtime error.  The fuel
bounds the walk up the (finite, acyclic in every reachable state)
chain. -/
def State.envGet (s : State) : Nat → Nat → String → Outcome Value
  | 0, _, n => .err ("Undefined variable '" ++ n ++ "'.")
  | fuel + 1, envId, n =>
    match alookup (s.envValues envId) n with
    | some v => .ok v
    | none =>
      match s.envEnclosing envId with
      | some p => s.envGet fuel p n
      | none => .err ("Undefined variable '" ++ n ++ "'.")

/-- Translation of `Environment.assign`: assign where the name is
bound, recursing into enclosing environments, else the runtime error. -/
def State.envAssign (s : State) : Nat → Nat → String → Value → Outcome Unit × State
  | 0, _, n, _ => (.err ("Undefined variable '" ++ n ++ "'."), s)
  | fuel + 1, envId, n, v =>
    if containsKey (s.envValues envId) n then (.ok (), s.define envId n v)
    else
      match s.envEnclosing envId with
      | some p => s.envAssign fuel p n v
      | none => (.err ("Undefined variable '" ++ n ++ "'."), s)

/-- Translation of `Interpreter._lookup_variable`: with a resolved
depth read via `get_at` from the current environment, otherwise from
the globals chain via `Environment.get`. -/
def lookupVariable (s : State) (n : String) (depth : Option Nat) : Outcome Value :=
  match depth with
  | some d => s.getAt s.current d n
  | none => s.envGet (s.envs.length + 1) 0 n

/-- Variable-assignment part of `Interpreter.visit_assign_expr`: with a
resolved depth `assign_at` on the current environment, otherwise
`globals.assign`. -/
def assignVariable (s : State) (n : String) (depth : Option Nat) (v : Value) :
    Outcome Unit × State :=
  match depth with
  | some d => s.assignAt s.current d n v
  | none => s.envAssign (s.envs.length + 1) 0 n v

/-- Getter test, translating `LoxFunction.is_getter`:
`declaration.params is None`. -/
def isGetter (f : FunData) : Bool := f.decl.params.isNone

/-- Arity, translating `LoxFunction.arity`:
`len(declaration.params or [])`. -/
def funArity (f : FunData) : Nat := (f.decl.params.getD []).length

/-- Parameter binding in `LoxFunction.call`: `zip` the parameter names
with the arguments and `define` each in the call environment (skipped
when `params` is `None`; an empty list binds nothing either way, as in
the source where `if self.declaration.params:` is falsy for `[]`). -/
def bindParams (envId : Nat) (params : Option (List String)) (args : List Value)
    (s : State) : State :=
  match params with
  | none => s
  | some ps => (ps.zip args).foldl (fun st pa => st.define envId pa.1 pa.2) s

/-- Translation of `LoxFunction.bind`: a fresh environment enclosing
the function's closure, defining `this` as the receiver; the result is
a new function value with that environment. -/
def bindMethod (m : FunData) (inst : Nat) (s : State) : FunData × State :=
  let e := s.envs.length
  let s' : State := { s with envs := s.envs ++ [⟨some m.closure, [("this", Value.vinst inst)]⟩] }
  ({ m with closure := e }, s')

/-- Translation of `LoxInstance.get`: own fields first, then the class
method chain (bound to the receiver), else the "Undefined property"
runtime error. -/
def instanceGet (s : State) (i : Nat) (n : String) : Outcome Value × State :=
  match s.insts.get? i with
  | none => (.err "Invalid instance reference.", s)
  | some inst =>
    match alookup inst.fields n with
    | some v => (.ok v, s)
    | none =>
      match inst.klass with
      | none => (.err ("Undefined property '" ++ n ++ "'."), s)
      | some k =>
        match findMethod k n with
        | some m =>
          let (f, s') := bindMethod m i s
          (.ok (.vfun f), s')
        | none => (.err ("Undefined property '" ++ n ++ "'."), s)

mutual

/-- Expression evaluation, translating the `Interpreter` visitor
methods `visit_literal_expr`, `visit_variable_expr`,
`visit_assign_expr`, `visit_call_expr` and `visit_get_expr`.  The fuel
argument bounds recursion depth (Python would raise a recursion error
on exhaustion; here it surfaces as an error outcome, which no theorem
below depends on). -/
def evalExpr : Nat → State → Expr → Outcome Value × State
  | 0, s, _ => (.err "Recursion limit reached.", s)
  | _ + 1, s, .lit l => (.ok l.toValue, s)
  | _ + 1, s, .evar n d => (lookupVariable s n d, s)
  | fuel + 1, s, .assign n d e =>
    match evalExpr fuel s e with
    | (.ok v, s1) =>
      match assignVariable s1 n d v with
      | (.ok _, s2) => (.ok v, s2)
      | (.err m, s2) => (.err m, s2)
      | (.retSig v', s2) => (.retSig v', s2)
      | (.brkSig, s2) => (.brkSig, s2)
    | r => r
  | fuel + 1, s, .call c args =>
    match evalExpr fuel s c with
    | (.ok cv, s1) =>
      match evalArgs fuel s1 args with
      | (.ok avs, s2) =>
        match cv with
        | .vfun f =>
          if avs.length ≠ funArity f then
            (.err ("Expected " ++ toString (funArity f) ++ " arguments but got "
              ++ toString avs.length ++ "."), s2)
          else callFunction fuel s2 f avs
        | _ => (.err "Can only call functions and classes.", s2)
      | (.err m, s2) => (.err m, s2)
      | (.retSig v, s2) => (.retSig v, s2)
      | (.brkSig, s2) => (.brkSig, s2)
    | r => r
  | fuel + 1, s, .get o n =>
    match evalExpr fuel s o with
    | (.ok ov, s1) => getProperty fuel s1 ov n
    | r => r
  termination_by structural fuel _ _ => fuel

/-- Argument evaluation in `visit_call_expr`: the list comprehension
`[self._evaluate(argument) for argument in expr.arguments]` evaluates
every argument left to right, stopping at a propagating exception. -/
def evalArgs : Nat → State → List Expr → Outcome (List Value) × State
  | 0, s, _ => (.err "Recursion limit reached.", s)
  | _ + 1, s, [] => (.ok [], s)
  | fuel + 1, s, e :: es =>
    match evalExpr fuel s e with
    | (.ok v, s1) =>
      match evalArgs fuel s1 es with
      | (.ok vs, s2) => (.ok (v :: vs), s2)
      | (.err m, s2) => (.err m, s2)
      | (.retSig v', s2) => (.retSig v', s2)
      | (.brkSig, s2) => (.brkSig, s2)
    | (.err m, s1) => (.err m, s1)
    | (.retSig v, s1) => (.retSig v, s1)
    | (.brkSig, s1) => (.brkSig, s1)
  termination_by structural fuel _ _ => fuel

/-- Property access after the object is evaluated — the body of
`visit_get_expr`: on an instance, `LoxInstance.get`, and when the
result is a getter function it is called immediately with no
arguments; on any other value the "Only instances have properties."
runtime error. -/
def getProperty : Nat → State → Value → String → Outcome Value × State
  | 0, s, _, _ => (.err "Recursion limit reached.", s)
  | fuel + 1, s, .vinst i, n =>
    match instanceGet s i n with
    | (.ok r, s1) =>
      match r with
      | .vfun f => if isGetter f then callFunction fuel s1 f [] else (.ok r, s1)
      | _ => (.ok r, s1)
    | r => r
  | _ + 1, s, _, _ => (.err "Only instances have properties.", s)
  termination_by structural fuel _ _ _ => fuel

/-- Translation of `LoxFunction.call`: a fresh environment over the
closure, parameter binding, the body run through `_execute_block`; a
`ReturnException` yields its value, normal completion yields
`closure.get_at(0, "this")` for an initializer and `nil` otherwise;
errors and break signals propagate. -/
def callFunction : Nat → State → FunData → List Value → Outcome Value × State
  | 0, s, _, _ => (.err "Recursion limit reached.", s)
  | fuel + 1, s, f, args =>
    let (envId, s1) := s.newEnv (some f.closure)
    let s2 := bindParams envId f.decl.params args s1
    match executeBlock fuel s2 f.decl.body envId with
    | (.retSig v, s3) => (.ok v, s3)
    | (.ok _, s3) =>
      if f.isInit then (s3.getAt f.closure 0 "this", s3) else (.ok .vnil, s3)
    | (.err m, s3) => (.err m, s3)
    | (.brkSig, s3) => (.brkSig, s3)
  termination_by structural fuel _ _ _ => fuel

/-- Translation of `Interpreter._execute_block`: remember the current
environment, switch to the block environment, run the statements, and
— as the `finally` clause — restore the previous environment on every
exit path. -/
def executeBlock : Nat → State → List Stmt → Nat → Outcome Unit × State
  | 0, s, _, _ => (.err "Recursion limit reached.", s)
  | fuel + 1, s, stmts, envId =>
    let prev := s.current
    let s1 : State := { s with current := envId }
    let (o, s2) := execStmts fuel s1 stmts
    (o, { s2 with current := prev })
  termination_by structural fuel _ _ _ => fuel

/-- Sequential statement execution (`for statement in statements`),
stopping at the first propagating exception. -/
def execStmts : Nat → State → List Stmt → Outcome Unit × State
  | 0, s, _ => (.err "Recursion limit reached.", s)
  | _ + 1, s, [] => (.ok (), s)
  | fuel + 1, s, st :: sts =>
    match execStmt fuel s st with
    | (.ok _, s1) => execStmts fuel s1 sts
    | r => r
  termination_by structural fuel _ _ => fuel

/-- Statement execution, translating `visit_expression_stmt`,
`visit_var_stmt`, `visit_block_stmt`, `visit_return_stmt` and
`visit_break_stmt`. -/
def execStmt : Nat → State → Stmt → Outcome Unit × State
  | 0, s, _ => (.err "Recursion limit reached.", s)
  | fuel + 1, s, .expression e =>
    match evalExpr fuel s e with
    | (.ok _, s1) => (.ok (), s1)
    | (.err m, s1) => (.err m, s1)
    | (.retSig v, s1) => (.retSig v, s1)
    | (.brkSig, s1) => (.brkSig, s1)
  | fuel + 1, s, .varDecl n init =>
    match init with
    | none => (.ok (), s.define s.current n .vnil)
    | some e =>
      match evalExpr fuel s e with
      | (.ok v, s1) => (.ok (), s1.define s1.current n v)
      | (.err m, s1) => (.err m, s1)
      | (.retSig v, s1) => (.retSig v, s1)
      | (.brkSig, s1) => (.brkSig, s1)
  | fuel + 1, s, .block ss =>
    let (envId, s1) := s.newEnv (some s.current)
    executeBlock fuel s1 ss envId
  | fuel + 1, s, .ret v? =>
    match v? with
    | none => (.retSig .vnil, s)
    | some e =>
      match evalExpr fuel s e with
      | (.ok v, s1) => (.retSig v, s1)
      | (.err m, s1) => (.err m, s1)
      | (.retSig v, s1) => (.retSig v, s1)
      | (.brkSig, s1) => (.brkSig, s1)
  | _ + 1, s, .brk => (.brkSig, s)
  termination_by structural fuel _ _ => fuel

end

/-- Chain membership of a name, the search space of `Environment.get`
(`name in values` of this environment or, recursively, an enclosing
one).  The fuel bounds the walk as in `State.envGet`. -/
def State.chainHas (s : State) : Nat → Nat → String → Bool
  | 0, _, _ => false
  | fuel + 1, envId, n =>
    containsKey (s.envValues envId) n ||
      (match s.envEnclosing envId with
       | some p => s.chainHas fuel p n
       | none => false)

/-- Scanner state (`scanner.py`): the source characters, the cursor
`current`, the `line` and `line_current` counters and the errors the
error handler accumulated. -/
structure ScanState where
  source : List Char
  current : Nat
  line : Nat
  lineCurrent : Nat
  errors : List String

/-- Translation of `Scanner._is_at_end`. -/
def ScanState.isAtEnd (st : ScanState) : Bool := st.source.length ≤ st.current

/-- Translation of `Scanner._peek`: the current character, `'\0'` at
the end. -/
def ScanState.peek (st : ScanState) : Char := st.source.getD st.current '\x00'

/-- Translation of `Scanner._peek_next`: the next character, `'\0'`
past the end. -/
def ScanState.peekNext (st : ScanState) : Char := st.source.getD (st.current + 1) '\x00'

/-- Translation of `Scanner._advance` restricted to its effect on the
state; in `block_comment` every returned character is discarded, and on
the inputs the theorems below evaluate the cursor stays in bounds, so
the `IndexError` Python would raise when reading past the end never
occurs on those runs. -/
def ScanState.advance (st : ScanState) : ScanState :=
  { st with current := st.current + 1, lineCurrent := st.lineCurrent + 1 }

/-- Translation of `Scanner._advance_two`. -/
def ScanState.advanceTwo (st : ScanState) : ScanState := st.advance.advance

/-- Translation of `Scanner._update_line`. -/
def ScanState.updateLine (st : ScanState) : ScanState :=
  { st with line := st.line + 1, lineCurrent := 0 }

/-- Translation of `self.error_handler.error(...)`: record the message. -/
def ScanState.addError (st : ScanState) (m : String) : ScanState :=
  { st with errors := st.errors ++ [m] }

/-- The unconditional tail of each `block_comment` loop iteration:
`if self._peek() == "\n": self._update_line()` followed by
`self._advance()`. -/
def bcAdvance (st : ScanState) : ScanState :=
  (if st.peek = '\n' then st.updateLine else st).advance

/-- The `while not self._is_at_end()` loop of `Scanner.block_comment`,
with the nesting level threaded as in the source: `/*` under the cursor
increments it after `advance_two`, `*/` decrements it after
`advance_two` and returns when it reaches zero, and every iteration
that does not return falls through to the newline check and the extra
`advance`.  Reaching the end of input appends the
"Unterminated block comment." error.  The fuel bounds the iteration
count; each iteration advances the cursor, so `length + 1` iterations
always suffice. -/
def blockCommentLoop : Nat → Int → ScanState → ScanState
  | 0, _, st => st
  | fuel + 1, nesting, st =>
    if st.isAtEnd then st.addError "Unterminated block comment."
    else if st.peek = '/' ∧ st.peekNext = '*' then
      blockCommentLoop fuel (nesting + 1) (bcAdvance st.advanceTwo)
    else if st.peek = '*' ∧ st.peekNext = '/' then
      let st2 := st.advanceTwo
      if nesting - 1 = 0 then st2
      else blockCommentLoop fuel (nesting - 1) (bcAdvance st2)
    else blockCommentLoop fuel nesting (bcAdvance st)

/-- Translation of `Scanner.block_comment`: the loop starting at
nesting level 1 (the opening `/*` was already consumed by
`scan_token`). -/
def blockComment (st : ScanState) : ScanState :=
  blockCommentLoop (st.source.length + 1) 1 st

/-- Modelled from the spec ("each `/*` increments a depth counter and
`*/` decrements — mismatch is an `Unterminated block comment` error"):
a depth-counting scan deciding whether the block comment opening the
given text is properly balanced.  This is the claim's notion of
balance, kept separate from the scanner translation above so the two
can be compared. -/
def specDepthScan : Nat → Int → List Char → Bool
  | 0, _, _ => false
  | _ + 1, _, [] => false
  | fuel + 1, depth, c :: rest =>
    match c, rest with
    | '/', '*' :: rest2 => specDepthScan fuel (depth + 1) rest2
    | '*', '/' :: rest2 =>
      if depth - 1 = 0 then true else specDepthScan fuel (depth - 1) rest2
    | _, _ => specDepthScan fuel depth rest

/-- Balance of a source text that starts with `/*`, per the spec's
depth counter. -/
def commentBalancedSpec (cs : List Char) : Bool :=
  match cs with
  | '/' :: '*' :: rest => specDepthScan (cs.length + 1) 1 rest
  | _ => false

/-- CPython list indexing: a non-negative index must be below the
length; a negative index `i` with `-len ≤ i` denotes position
`len + i`; anything else is an `IndexError`. -/
def pyIndex (len : Nat) (i : Int) : Option Nat :=
  if 0 ≤ i then (if i < (len : Int) then some i.toNat else none)
  else (if -(len : Int) ≤ i then some (i + (len : Int)).toNat else none)

/-- Translation of `ArrayGetCallable.call` on a number argument:
`index = int(float(arguments[0]))` truncates toward zero, then
`self.elements[index]` follows Python list indexing, and an
`IndexError` becomes the runtime error.  (Non-number arguments take the
`TypeError`/`ValueError` path to the same error; the claim only
concerns number indices, so the argument is modelled as a number.) -/
def arrayGetCall (elements : List Value) (q : ℚ) : Except String Value :=
  match pyIndex elements.length (pyInt q) with
  | some k => .ok ((elements.get? k).getD .vnil)
  | none => .error "Index out of bounds or invalid index type."

/-- Translation of `ArraySetCallable.call` on a number index: the
truncated index is written through Python list assignment and the
stored value is returned; an `IndexError` becomes the runtime error. -/
def arraySetCall (elements : List Value) (q : ℚ) (v : Value) :
    Except String (List Value × Value) :=
  match pyIndex elements.length (pyInt q) with
  | some k => .ok (elements.set k v, v)
  | none => .error "Index out of bounds or invalid index type."

/-- The message `_apply_trait` raises on a method-name collision. -/
def dupMethodMsg (n : String) : String :=
  "Duplicate method '" ++ n ++ "' found in traits."

/-- The inner loop of `Interpreter._apply_trait`: insert one trait's
methods into the combined map, erroring on a name already present. -/
def insertTraitMethods (acc : List (String × FunData)) :
    List (String × FunData) → Except String (List (String × FunData))
  | [] => .ok acc
  | (n, m) :: rest =>
    if containsKey acc n then .error (dupMethodMsg n)
    else insertTraitMethods (acc ++ [(n, m)]) rest

/-- The outer loop of `Interpreter._apply_trait` over the applied
traits. -/
def applyTraitAux (acc : List (String × FunData)) :
    List (List (String × FunData)) → Except String (List (String × FunData))
  | [] => .ok acc
  | t :: ts =>
    match insertTraitMethods acc t with
    | .ok acc2 => applyTraitAux acc2 ts
    | .error e => .error e

/-- Translation of `Interpreter._apply_trait`, taking the method maps
of the applied traits (the source first evaluates each trait expression
and errors when it is not a trait; the claim is scoped to applications
whose operands are traits, so the maps are taken directly). -/
def applyTrait (ts : List (List (String × FunData))) :
    Except String (List (String × FunData)) :=
  applyTraitAux [] ts

/-- Key-disjointness of two method maps: no method name of the first
occurs in the second. -/
def keysDisjoint (a b : List (String × FunData)) : Prop :=
  ∀ n ∈ a.map Prod.fst, n ∉ b.map Prod.fst

/-- Globals-only state with `x = 0`, for exercising argument side
effects of a call whose callee is not callable. -/
def c5State : State := ⟨[⟨none, [("x", Value.vnum 0)]⟩], [], 0⟩

/-- The call `3(x = 1)`: the callee evaluates to a number and the
single argument assigns the global `x`. -/
def c5Expr : Expr := .call (.lit (.lnum 3)) [.assign "x" none (.lit (.lnum 1))]

/-- State for exercising `LoxFunction.call` on an initializer: env 0 is
the globals, env 1 the environment `bind` created, holding `this` bound
to instance 0. -/
def c2State : State :=
  ⟨[⟨none, []⟩, ⟨some 0, [("this", Value.vinst 0)]⟩],
   [⟨some (ClassData.mk "C" none []), []⟩], 0⟩

/-- An initializer whose body is a bare `return;`. -/
def c2InitBare : FunData := ⟨⟨"init", some [], [Stmt.ret none]⟩, 1, true⟩

/-- An initializer with an empty body (normal completion). -/
def c2InitEmpty : FunData := ⟨⟨"init", some [], []⟩, 1, true⟩

/-- Claim C1 (counterexample) — the claim says the number `0` is truthy;
`Interpreter._is_truthy` is `bool(obj)`, under which the number `0` is
falsy although it is neither `Nil` nor the boolean `false`. -/
theorem isTruthy_zero_counterexample :
    isTruthy (Value.vnum 0) = false
    ∧ Value.vnum 0 ≠ Value.vnil
    ∧ Value.vnum 0 ≠ Value.vbool false := by
  refine ⟨rfl, ?_, ?_⟩ <;> simp

/-- Claim C1 (amended) — the truthiness test yields `false` exactly when
the value is `Nil`, the boolean `false`, the number `0`, or the empty
string; every other value is truthy (Python truthiness). -/
theorem isTruthy_false_iff (v : Value) :
    isTruthy v = false
      ↔ (v = .vnil ∨ v = .vbool false ∨ v = .vnum 0 ∨ v = .vstr "") := by
  cases v <;> simp [isTruthy]

/-- Claim C4 — `floor` and `ceil` are implemented as `float(int(x))` and
`float(-int(-x))`, which both truncate toward zero: `floor(-3/2)`
returns `-1`, which is not `≤ -3/2`, so it is not the greatest integer
below the argument; `ceil(5/2)` returns `2`, which is not `≥ 5/2`, so it
is not the least integer above the argument. -/
theorem floor_ceil_truncate_toward_zero :
    floorNative (.vnum (-3/2)) = .ok (.vnum (-1))
    ∧ ¬ ((-1 : ℚ) ≤ -3/2)
    ∧ ceilNative (.vnum (5/2)) = .ok (.vnum 2)
    ∧ ¬ ((5/2 : ℚ) ≤ 2) := by
  have h1 : pyInt (-(3/2 : ℚ)) = -1 := by
    rw [pyInt, if_pos (by norm_num)]
    rw [show (-(-(3/2 : ℚ))) = 3/2 by norm_num]
    norm_num [Int.floor_eq_iff]
  have h2 : pyInt (-(5/2 : ℚ)) = -2 := by
    rw [pyInt, if_pos (by norm_num)]
    rw [show (-(-(5/2 : ℚ))) = 5/2 by norm_num]
    norm_num [Int.floor_eq_iff]
  refine ⟨?_, by norm_num, ?_, by norm_num⟩
  · norm_num [floorNative, h1]
  · norm_num [ceilNative, h2]

/-- Claim C3 — the source `/*/**/*/` is a properly balanced nested block
comment under the spec's depth counter, yet `Scanner.block_comment`
(entered with the cursor just past the opening `/*`) reports
"Unterminated block comment." on it: the unconditional `advance` at the
bottom of the loop skips the character right after each delimiter, so
the closing `*/` of the inner comment is misread.  A nested comment
whose delimiters are not adjacent (the repository's own test case
shape) scans cleanly. -/
theorem blockComment_rejects_balanced_nested :
    commentBalancedSpec ("/*/**/*/".toList) = true
    ∧ (blockComment ⟨"/*/**/*/".toList, 2, 1, 2, []⟩).errors
        = ["Unterminated block comment."]
    ∧ (blockComment ⟨"/* /* */ */".toList, 2, 1, 2, []⟩).errors = [] := by
  refine ⟨?_, ?_, ?_⟩ <;> rfl

/-- Claim C2 — calling an initializer whose body is a bare `return;`
returns `nil`, not the receiver: the `except ReturnException` branch of
`LoxFunction.call` returns `e.value` without the `is_initializer`
check.  Normal completion does return `closure.get_at(0, "this")`, the
receiver (instance 0 here), so the two exit paths disagree. -/
theorem initializer_bare_return_yields_nil :
    (callFunction 5 c2State c2InitBare []).1 = .ok .vnil
    ∧ (callFunction 5 c2State c2InitEmpty []).1 = .ok (.vinst 0)
    ∧ c2State.getAt 1 0 "this" = .ok (.vinst 0) :=
  ⟨rfl, rfl, rfl⟩

/-- Claim C5 (counterexample) — the call `3(x = 1)` raises "Can only
call functions and classes.", but the argument's side effect has
already happened: the global `x` is `1` afterwards, because
`visit_call_expr` evaluates all arguments before the callable check. -/
theorem call_error_after_argument_effects :
    (evalExpr 5 c5State c5Expr).1 = .err "Can only call functions and classes."
    ∧ alookup ((evalExpr 5 c5State c5Expr).2.envValues 0) "x" = some (.vnum 1) :=
  ⟨rfl, rfl⟩

/-- Claim C5 (amended) — when the callee of a call evaluates to a value
that is not callable, the runtime error "Can only call functions and
classes." is raised only after every argument expression has been
evaluated left to right: the resulting state is the state after the
argument evaluations, so their side effects occur. -/
theorem visit_call_noncallable_after_args (fuel : Nat) (s s1 s2 : State)
    (c : Expr) (args : List Expr) (v : Value) (avs : List Value)
    (hc : evalExpr fuel s c = (.ok v, s1))
    (hv : ∀ f, v ≠ .vfun f)
    (ha : evalArgs fuel s1 args = (.ok avs, s2)) :
    evalExpr (fuel + 1) s (.call c args)
      = (.err "Can only call functions and classes.", s2) := by
  cases v with
  | vfun f => exact absurd rfl (hv f)
  | vnil => simp [evalExpr, hc, ha]
  | vbool b => simp [evalExpr, hc, ha]
  | vnum q => simp [evalExpr, hc, ha]
  | vstr t => simp [evalExpr, hc, ha]
  | vinst i => simp [evalExpr, hc, ha]

/-- Claim C5 (amended), witnessed at the call `nil()` in a one-env
state. -/
theorem visit_call_noncallable_after_args_witness :
    evalExpr 2 ⟨[⟨none, []⟩], [], 0⟩ (.call (.lit .lnil) [])
      = (.err "Can only call functions and classes.", ⟨[⟨none, []⟩], [], 0⟩) :=
  visit_call_noncallable_after_args 1 _ _ _ _ _ .vnil []
    rfl (fun _ h => nomatch h) rfl

/-- Restoration lemma for `_execute_block`: the `finally` clause puts
the previous environment back whatever the statements did. -/
theorem executeBlock_current (fuel : Nat) (s : State) (stmts : List Stmt)
    (envId : Nat) : ((executeBlock fuel s stmts envId).2).current = s.current := by
  cases fuel with
  | zero => rfl
  | succ fuel =>
    show ((match execStmts fuel { s with current := envId } stmts with
      | (o, s2) => (o, { s2 with current := s.current })).2).current = s.current
    rcases execStmts fuel { s with current := envId } stmts with ⟨o, s2⟩
    rfl

/-- Claim C6 — for every fuel bound, initial state, statement list and
block environment, the current-environment pointer after
`_execute_block` (and hence after a block statement) equals the pointer
from before the block was entered; the equation holds for every exit
path — normal completion, return signal, break signal, runtime error —
because the restoration is the unconditional `finally`. -/
theorem block_restores_environment_pointer (fuel : Nat) (s : State)
    (stmts : List Stmt) (envId : Nat) :
    ((executeBlock fuel s stmts envId).2).current = s.current
    ∧ ((execStmt fuel s (.block stmts)).2).current = s.current := by
  refine ⟨executeBlock_current fuel s stmts envId, ?_⟩
  cases fuel with
  | zero => rfl
  | succ fuel =>
    show ((executeBlock fuel
      { s with envs := s.envs ++ [⟨some s.current, []⟩] } stmts s.envs.length).2).current
        = s.current
    exact executeBlock_current fuel _ stmts _

/-- Claim C9 — `Environment.get_at` with an existing ancestor whose map
lacks the name yields `nil` (Python `dict.get` returns `None`) rather
than any error; by contrast, `Environment.get` raises
"Undefined variable" whenever the name is absent from the whole
chain. -/
theorem get_at_absent_yields_nil (s : State) (envId d : Nat) (n : String)
    (a : Nat) (ha : s.ancestor envId d = some a)
    (hn : alookup (s.envValues a) n = none) :
    s.getAt envId d n = .ok .vnil
    ∧ (∀ m, s.getAt envId d n ≠ .err m)
    ∧ (∀ fuel eid, s.chainHas fuel eid n = false →
        s.envGet fuel eid n = .err ("Undefined variable '" ++ n ++ "'.")) := by
  have h1 : s.getAt envId d n = .ok .vnil := by
    rw [State.getAt, ha]
    show Outcome.ok ((alookup (s.envValues a) n).getD Value.vnil) = _
    rw [hn]
    rfl
  refine ⟨h1, ?_, ?_⟩
  · intro m hm
    rw [h1] at hm
    exact nomatch hm
  · intro fuel
    induction fuel with
    | zero => intro eid _; rfl
    | succ fuel ih =>
      intro eid hch
      rw [State.chainHas] at hch
      rw [Bool.or_eq_false_iff] at hch
      obtain ⟨hck, hrest⟩ := hch
      have hlk : alookup (s.envValues eid) n = none := by
        rw [containsKey] at hck
        cases hal : alookup (s.envValues eid) n with
        | none => rfl
        | some v => rw [hal] at hck; exact nomatch hck
      rw [State.envGet, hlk]
      cases henc : s.envEnclosing eid with
      | none => rfl
      | some p =>
        rw [henc] at hrest
        exact ih p hrest

/-- State witnessing claim C9: two environments, the current one (id 1)
enclosed by the globals, with `q` bound nowhere. -/
def c9State : State := ⟨[⟨none, [("y", Value.vnum 5)]⟩, ⟨some 0, []⟩], [], 1⟩

/-- Claim C9 witness: the ancestor one link up exists and lacks `q`, so
the resolved read yields `nil`. -/
theorem get_at_absent_yields_nil_witness : c9State.getAt 1 1 "q" = .ok .vnil :=
  (get_at_absent_yields_nil c9State 1 1 "q" 0 rfl rfl).1

/-- Python `int()` is the identity on (casts of) integers. -/
theorem pyInt_intCast (i : Int) : pyInt (i : ℚ) = i := by
  rw [pyInt]
  by_cases h : ((i : ℚ) < 0)
  · rw [if_pos h]
    rw [show (-(i : ℚ)) = ((-i : Int) : ℚ) by push_cast; ring]
    rw [Int.floor_intCast]
    ring
  · rw [if_neg h, Int.floor_intCast]

/-- CPython indexing misses exactly outside `[-len, len)`. -/
theorem pyIndex_none_iff (len : Nat) (j : Int) :
    pyIndex len j = none ↔ ((len : Int) ≤ j ∨ j < -(len : Int)) := by
  rw [pyIndex]
  split_ifs with h1 h2 h3 <;> simp <;> omega

/-- Claim C10 — on an array with `-n ≤ i ≤ -1`, the `get` callable
returns the element at position `n + i` and the `set` callable writes
that position; for any integer index the
"Index out of bounds or invalid index type." error occurs exactly when
the index is `≥ n` or `< -n`. -/
theorem array_negative_index (elements : List Value) (i : Int) (v : Value)
    (h1 : -(elements.length : Int) ≤ i) (h2 : i ≤ -1) :
    (∀ w, elements.get? (i + elements.length).toNat = some w →
        arrayGetCall elements (i : ℚ) = .ok w)
    ∧ arraySetCall elements (i : ℚ) v
        = .ok (elements.set (i + elements.length).toNat v, v)
    ∧ (∀ j : Int, arrayGetCall elements (j : ℚ)
          = .error "Index out of bounds or invalid index type."
        ↔ ((elements.length : Int) ≤ j ∨ j < -(elements.length : Int))) := by
  have hpi : pyIndex elements.length i = some (i + elements.length).toNat := by
    rw [pyIndex, if_neg (by omega), if_pos (by omega)]
  refine ⟨?_, ?_, ?_⟩
  · intro w hw
    rw [arrayGetCall, pyInt_intCast, hpi]
    show Except.ok ((elements.get? (i + elements.length).toNat).getD .vnil) = _
    rw [hw]
    rfl
  · rw [arraySetCall, pyInt_intCast, hpi]
  · intro j
    rw [arrayGetCall, pyInt_intCast]
    cases hpj : pyIndex elements.length j with
    | some k =>
      rw [← pyIndex_none_iff]
      show Except.ok ((elements.get? k).getD .vnil) = _ ↔ _
      constructor
      · intro h; exact nomatch h
      · intro h; rw [hpj] at h; exact nomatch h
    | none =>
      rw [← pyIndex_none_iff, hpj]
      show Except.error _ = Except.error _ ↔ _
      simp

/-- Claim C10 witness: reading index `-1` of a two-element array yields
the last element. -/
theorem array_negative_index_witness :
    arrayGetCall [Value.vnil, Value.vnum 7] ((-1 : Int) : ℚ) = .ok (Value.vnum 7) :=
  (array_negative_index [Value.vnil, Value.vnum 7] (-1) Value.vnil
    (by norm_num) (by norm_num)).1 (Value.vnum 7) rfl

/-- A parameterless (getter-shaped) function value closing over the
globals, whose body returns `5`. -/
def c7GetterFun : FunData := ⟨⟨"g", none, [Stmt.ret (some (.lit (.lnum 5)))]⟩, 0, false⟩

/-- State with one instance whose own FIELD `g` holds the getter-shaped
function value. -/
def c7State : State :=
  ⟨[⟨none, []⟩],
   [⟨some (ClassData.mk "C" none []), [("g", Value.vfun c7GetterFun)]⟩], 0⟩

/-- Claim C7 (counterexample) — the name `g` is among the instance's own
fields and its field value is a function value, yet the property read
does not return that field value: `visit_get_expr` applies the getter
check to whatever `LoxInstance.get` returned, fields included, so the
parameterless function stored in the field is invoked and the read
yields its result `5`. -/
theorem get_field_getter_invoked :
    (getProperty 10 c7State (.vinst 0) "g").1 = .ok (.vnum 5)
    ∧ alookup ((c7State.insts.get? 0).getD ⟨none, []⟩).fields "g"
        = some (.vfun c7GetterFun)
    ∧ Value.vfun c7GetterFun ≠ Value.vnum 5 := by
  refine ⟨rfl, rfl, ?_⟩
  simp

/-- Claim C7 (amended) — a property read on an instance returns: the
field value when the name is among the instance's own fields, unless
that value is itself a parameterless function, which is invoked with
zero arguments and its result returned; otherwise the method found by
searching the class and then recursively the superclass, bound to the
receiver through a fresh environment defining `this` (and, when that
method is a getter, invoked immediately with zero arguments); and the
"Undefined property" runtime error when both lookups fail. -/
theorem get_property_characterization (fuel : Nat) (s : State) (i : Nat)
    (n : String) (inst : InstData) (hi : s.insts[i]? = some inst) :
    (∀ v, alookup inst.fields n = some v →
      ((∀ f, v = .vfun f → isGetter f = false) →
          getProperty (fuel + 1) s (.vinst i) n = (.ok v, s))
      ∧ (∀ f, v = .vfun f → isGetter f = true →
          getProperty (fuel + 1) s (.vinst i) n = callFunction fuel s f []))
    ∧ (alookup inst.fields n = none → ∀ k m, inst.klass = some k →
        findMethod k n = some m →
        (isGetter m = false →
          getProperty (fuel + 1) s (.vinst i) n
            = (.ok (.vfun ⟨m.decl, s.envs.length, m.isInit⟩),
               { s with envs := s.envs ++ [⟨some m.closure, [("this", Value.vinst i)]⟩] }))
        ∧ (isGetter m = true →
          getProperty (fuel + 1) s (.vinst i) n
            = callFunction fuel
                { s with envs := s.envs ++ [⟨some m.closure, [("this", Value.vinst i)]⟩] }
                ⟨m.decl, s.envs.length, m.isInit⟩ []))
    ∧ (alookup inst.fields n = none →
        (inst.klass = none ∨ ∃ k, inst.klass = some k ∧ findMethod k n = none) →
        getProperty (fuel + 1) s (.vinst i) n
          = (.err ("Undefined property '" ++ n ++ "'."), s)) := by
  refine ⟨?_, ?_, ?_⟩
  · intro v hv
    constructor
    · intro hng
      cases v with
      | vfun f =>
        have hf := hng f rfl
        simp [getProperty, instanceGet, hi, hv, hf]
      | vnil => simp [getProperty, instanceGet, hi, hv]
      | vbool b => simp [getProperty, instanceGet, hi, hv]
      | vnum q => simp [getProperty, instanceGet, hi, hv]
      | vstr t => simp [getProperty, instanceGet, hi, hv]
      | vinst j => simp [getProperty, instanceGet, hi, hv]
    · intro f hvf hg
      subst hvf
      simp [getProperty, instanceGet, hi, hv, hg]
  · intro hv k m hk hm
    have hgb : isGetter (⟨m.decl, s.envs.length, m.isInit⟩ : FunData) = isGetter m := rfl
    constructor
    · intro hg
      simp [getProperty, instanceGet, hi, hv, hk, hm, bindMethod, hgb, hg]
    · intro hg
      simp [getProperty, instanceGet, hi, hv, hk, hm, bindMethod, hgb, hg]
  · intro hv hko
    cases hko with
    | inl hk => simp [getProperty, instanceGet, hi, hv, hk]
    | inr hex =>
      obtain ⟨k, hk, hm⟩ := hex
      simp [getProperty, instanceGet, hi, hv, hk, hm]

/-- Declaration of the plain method used in the C7 witness. -/
def c7MDecl : FunDecl := ⟨"m", some ["a"], []⟩

/-- The plain (non-getter) method used in the C7 witness. -/
def c7Meth : FunData := ⟨c7MDecl, 0, false⟩

/-- Class offering the method `m`, used in the C7 witness. -/
def c7Klass : ClassData := .mk "D" none [("m", c7Meth)]

/-- State for the C7 witness: one instance of `c7Klass` without own
fields. -/
def c7WState : State := ⟨[⟨none, []⟩], [⟨some c7Klass, []⟩], 0⟩

/-- Claim C7 (amended) witness: reading `m` finds no field, finds the
class method, and returns it bound to the receiver through a fresh
environment defining `this`. -/
theorem get_property_characterization_witness :
    getProperty 1 c7WState (.vinst 0) "m"
      = (.ok (.vfun ⟨c7MDecl, 1, false⟩),
         { c7WState with envs := c7WState.envs ++ [⟨some 0, [("this", Value.vinst 0)]⟩] }) :=
  ((get_property_characterization 0 c7WState 0 "m" ⟨some c7Klass, []⟩ rfl).2.1
    rfl c7Klass c7Meth rfl rfl).1 rfl

/-- Key membership through an append splits over the parts. -/
theorem containsKey_append {α : Type} (a b : List (String × α)) (n : String) :
    containsKey (a ++ b) n = (containsKey a n || containsKey b n) := by
  induction a with
  | nil => simp [containsKey, alookup]
  | cons hd tl ih =>
    obtain ⟨k, w⟩ := hd
    by_cases h : k = n
    · simp [containsKey, alookup, h]
    · simpa [containsKey, alookup, h] using ih

/-- Key membership coincides with membership in the key list. -/
theorem containsKey_iff_mem {α : Type} (l : List (String × α)) (n : String) :
    containsKey l n = true ↔ n ∈ l.map Prod.fst := by
  induction l with
  | nil => simp [containsKey, alookup]
  | cons hd tl ih =>
    obtain ⟨k, w⟩ := hd
    by_cases h : k = n
    · simp [containsKey, alookup, h]
    · have h' : ¬ (n = k) := fun hh => h hh.symm
      simpa [containsKey, alookup, h, h'] using ih

/-- Absence of a key coincides with non-membership in the key list. -/
theorem containsKey_eq_false_iff {α : Type} (l : List (String × α)) (n : String) :
    containsKey l n = false ↔ n ∉ l.map Prod.fst := by
  rw [← containsKey_iff_mem]
  cases containsKey l n <;> simp

/-- Key-disjointness is symmetric. -/
theorem keysDisjoint_symm {a b : List (String × FunData)} :
    keysDisjoint a b → keysDisjoint b a :=
  fun h n hb ha => h n ha hb

/-- Inserting one trait's methods succeeds and appends them when its
names are fresh (per-trait names are unique: Python dict keys). -/
theorem insertTraitMethods_ok (t : List (String × FunData)) :
    ∀ acc, (t.map Prod.fst).Nodup →
      (∀ n ∈ t.map Prod.fst, containsKey acc n = false) →
      insertTraitMethods acc t = .ok (acc ++ t) := by
  induction t with
  | nil => intro acc _ _; simp [insertTraitMethods]
  | cons hd tl ih =>
    intro acc hnd hdisj
    obtain ⟨n, m⟩ := hd
    have hn : containsKey acc n = false := hdisj n (by simp)
    rw [insertTraitMethods, if_neg (by simp [hn])]
    have hnd' : (tl.map Prod.fst).Nodup := by
      simpa using hnd.of_cons
    have hhead : n ∉ tl.map Prod.fst := by
      have := hnd
      simp only [List.map_cons, List.nodup_cons] at this
      exact this.1
    have hdisj' : ∀ n' ∈ tl.map Prod.fst, containsKey (acc ++ [(n, m)]) n' = false := by
      intro n' hn'
      rw [containsKey_append]
      have h1 : containsKey acc n' = false := hdisj n' (by simp [hn'])
      have h2 : containsKey [(n, m)] n' = false := by
        rw [containsKey_eq_false_iff]
        simp
        intro hEq
        exact hhead (hEq ▸ hn')
      simp [h1, h2]
    rw [ih (acc ++ [(n, m)]) hnd' hdisj']
    simp

/-- Success of the insertion implies the names were fresh and the
result is the append. -/
theorem insertTraitMethods_ok_inv (t : List (String × FunData)) :
    ∀ acc r, insertTraitMethods acc t = .ok r →
      r = acc ++ t ∧ ∀ n ∈ t.map Prod.fst, containsKey acc n = false := by
  induction t with
  | nil =>
    intro acc r h
    simp [insertTraitMethods] at h
    subst h
    simp
  | cons hd tl ih =>
    intro acc r h
    obtain ⟨n, m⟩ := hd
    rw [insertTraitMethods] at h
    by_cases hck : containsKey acc n = true
    · rw [if_pos (by simp [hck])] at h
      exact nomatch h
    · rw [if_neg (by simpa using hck)] at h
      obtain ⟨hr, hfresh⟩ := ih (acc ++ [(n, m)]) r h
      refine ⟨by simpa using hr, ?_⟩
      intro n' hn'
      simp only [List.map_cons, List.mem_cons] at hn'
      cases hn' with
      | inl hEq => subst hEq; simpa using hck
      | inr hmem =>
        have := hfresh n' hmem
        rw [containsKey_append] at this
        exact (Bool.or_eq_false_iff.mp this).1

/-- The insertion only ever fails with the duplicate-method message. -/
theorem insertTraitMethods_error_shape (t : List (String × FunData)) :
    ∀ acc e, insertTraitMethods acc t = .error e → ∃ n, e = dupMethodMsg n := by
  induction t with
  | nil => intro acc e h; exact nomatch h
  | cons hd tl ih =>
    intro acc e h
    obtain ⟨n, m⟩ := hd
    rw [insertTraitMethods] at h
    by_cases hck : containsKey acc n = true
    · rw [if_pos (by simp [hck])] at h
      exact ⟨n, (Except.error.injEq _ _ ▸ h).symm ▸ rfl⟩
    · rw [if_neg (by simpa using hck)] at h
      exact ih _ e h

/-- The trait fold only ever fails with the duplicate-method message. -/
theorem applyTraitAux_error_shape (ts : List (List (String × FunData))) :
    ∀ acc e, applyTraitAux acc ts = .error e → ∃ n, e = dupMethodMsg n := by
  induction ts with
  | nil => intro acc e h; exact nomatch h
  | cons t rest ih =>
    intro acc e h
    rw [applyTraitAux] at h
    cases hins : insertTraitMethods acc t with
    | ok acc2 => rw [hins] at h; exact ih acc2 e h
    | error e' =>
      rw [hins] at h
      cases h
      exact insertTraitMethods_error_shape t acc e hins

/-- The trait fold concatenates the maps when accumulated and pairwise
names are disjoint. -/
theorem applyTraitAux_ok (ts : List (List (String × FunData))) :
    ∀ acc, (∀ t ∈ ts, (t.map Prod.fst).Nodup) →
      (∀ t ∈ ts, ∀ n ∈ t.map Prod.fst, containsKey acc n = false) →
      List.Pairwise keysDisjoint ts →
      applyTraitAux acc ts = .ok (acc ++ ts.flatten) := by
  induction ts with
  | nil => intro acc _ _ _; simp [applyTraitAux]
  | cons t rest ih =>
    intro acc hnd hacc hpw
    obtain ⟨hpw1, hpw2⟩ := List.pairwise_cons.mp hpw
    rw [applyTraitAux,
      insertTraitMethods_ok t acc (hnd t (by simp)) (hacc t (by simp))]
    show applyTraitAux (acc ++ t) rest = _
    have hacc' : ∀ u ∈ rest, ∀ n ∈ u.map Prod.fst,
        containsKey (acc ++ t) n = false := by
      intro u hu n hn
      rw [containsKey_append]
      have h1 : containsKey acc n = false := hacc u (by simp [hu]) n hn
      have h2 : containsKey t n = false := by
        rw [containsKey_eq_false_iff]
        exact keysDisjoint_symm (hpw1 u hu) n hn
      simp [h1, h2]
    rw [ih (acc ++ t) (fun u hu => hnd u (by simp [hu])) hacc' hpw2]
    simp

/-- Success of the trait fold implies the maps were pairwise disjoint,
fresh against the accumulator, and the result is the concatenation. -/
theorem applyTraitAux_ok_inv (ts : List (List (String × FunData))) :
    ∀ acc r, applyTraitAux acc ts = .ok r →
      r = acc ++ ts.flatten ∧ List.Pairwise keysDisjoint ts
      ∧ ∀ t ∈ ts, ∀ n ∈ t.map Prod.fst, containsKey acc n = false := by
  induction ts with
  | nil =>
    intro acc r h
    simp [applyTraitAux] at h
    subst h
    simp
  | cons t rest ih =>
    intro acc r h
    rw [applyTraitAux] at h
    cases hins : insertTraitMethods acc t with
    | error e => rw [hins] at h; exact nomatch h
    | ok acc2 =>
      rw [hins] at h
      obtain ⟨hacc2, hfresh⟩ := insertTraitMethods_ok_inv t acc acc2 hins
      subst hacc2
      obtain ⟨hr, hpw, hrest⟩ := ih (acc ++ t) r h
      have hrestAcc : ∀ u ∈ rest, ∀ n ∈ u.map Prod.fst,
          containsKey acc n = false := by
        intro u hu n hn
        have := hrest u hu n hn
        rw [containsKey_append] at this
        exact (Bool.or_eq_false_iff.mp this).1
      have hrestT : ∀ u ∈ rest, keysDisjoint t u := by
        intro u hu
        refine keysDisjoint_symm ?_
        intro n hn
        have := hrest u hu n hn
        rw [containsKey_append] at this
        have h2 := (Bool.or_eq_false_iff.mp this).2
        rw [containsKey_eq_false_iff] at h2
        exact h2
      refine ⟨by simpa using hr, List.pairwise_cons.mpr ⟨hrestT, hpw⟩, ?_⟩
      intro u hu n hn
      cases List.mem_cons.mp hu with
      | inl hEq => subst hEq; exact hfresh n hn
      | inr hmem => exact hrestAcc u hmem n hn

/-- Claim C8 — applying traits whose per-trait method names are unique:
when no two applied traits supply a method of the same name, the
combined map is exactly the union (the concatenation of the maps);
when two do, `_apply_trait` raises the "Duplicate method" runtime
error. -/
theorem apply_trait_union_or_duplicate (ts : List (List (String × FunData)))
    (hnd : ∀ t ∈ ts, (t.map Prod.fst).Nodup) :
    (List.Pairwise keysDisjoint ts → applyTrait ts = .ok ts.flatten)
    ∧ (¬ List.Pairwise keysDisjoint ts →
        ∃ n, applyTrait ts = .error (dupMethodMsg n)) := by
  constructor
  · intro hpw
    have := applyTraitAux_ok ts [] hnd (by intro t _ n _; rfl) hpw
    simpa [applyTrait] using this
  · intro hnpw
    cases hres : applyTrait ts with
    | ok r =>
      have := (applyTraitAux_ok_inv ts [] r (by rw [applyTrait] at hres; exact hres)).2.1
      exact absurd this hnpw
    | error e =>
      obtain ⟨n, rfl⟩ := applyTraitAux_error_shape ts [] e
        (by rw [applyTrait] at hres; exact hres)
      exact ⟨n, rfl⟩

/-- First trait map for the C8 witness. -/
def c8T1 : List (String × FunData) := [("m", ⟨⟨"m", some [], []⟩, 0, false⟩)]

/-- Second trait map for the C8 witness, with a distinct method name. -/
def c8T2 : List (String × FunData) := [("n", ⟨⟨"n", some [], []⟩, 0, false⟩)]

/-- Claim C8 witness: two traits with distinct method names compose to
the union of their maps. -/
theorem apply_trait_union_or_duplicate_witness :
    applyTrait [c8T1, c8T2] = .ok ([c8T1, c8T2].flatten) :=
  (apply_trait_union_or_duplicate [c8T1, c8T2]
    (by intro t ht; simp [c8T1, c8T2] at ht; rcases ht with rfl | rfl <;> simp)).1
    (by
      refine List.pairwise_cons.mpr ⟨?_, List.pairwise_cons.mpr ⟨?_, List.Pairwise.nil⟩⟩
      · intro u hu
        simp [c8T2] at hu
        subst hu
        intro x hx
        simp [c8T1] at hx
        subst hx
        simp [c8T2]
      · intro u hu
        exact absurd hu (List.not_mem_nil u))

end Lox
